import Mathlib

/-!
Verification development for the retrieval-augmented chat worker
(`src/index.ts`, `src/types.ts`).

The TypeScript source is shallowly embedded: JavaScript strings become
`List Char` (or Lean `String` where only equality and concatenation matter),
JS numbers in data records become `Int`/`Nat`, fallible code returns
`Except`, asynchronous capability calls (Workers AI, Vectorize, Durable
Object storage) become explicit outcome parameters, and the Durable Object
storage becomes an explicit state record threaded through the operations.
While-loops are embedded with an explicit fuel argument that is always
called with enough fuel for the loop, so the definitions stay structurally
recursive and computable.
-/

/-! ## JavaScript string primitives -/

/-- The whitespace characters relevant to this code base for
`String.prototype.trim` (space, tab, newline, carriage return). -/
def jsWhitespace (c : Char) : Bool :=
  c = ' ' || c = '\t' || c = '\n' || c = '\r'

/-- Model of JavaScript `String.prototype.trim` over a list of characters. -/
def jsTrim (s : List Char) : List Char :=
  (((s.dropWhile jsWhitespace).reverse).dropWhile jsWhitespace).reverse

/-- `trim` lifted to Lean `String`. -/
def jsTrimS (s : String) : String :=
  String.mk (jsTrim s.data)

/-- Model of JavaScript `Array.prototype.slice(-n)`: the last `n` elements
(the whole array when it is shorter than `n`). -/
def sliceLast (n : Nat) (l : List α) : List α :=
  l.drop (l.length - n)

/-- Lower-casing used for MIME, file-name and error-message matching. -/
def toLowerChars (s : List Char) : List Char := s.map Char.toLower

/-- Decimal digit characters for rendering numbers into strings. -/
def digitChar (d : Nat) : Char :=
  if d = 0 then '0' else if d = 1 then '1' else if d = 2 then '2'
  else if d = 3 then '3' else if d = 4 then '4' else if d = 5 then '5'
  else if d = 6 then '6' else if d = 7 then '7' else if d = 8 then '8' else '9'

/-- Fuel-driven decimal rendering of a natural number (most significant
digit first); the fuel is always called with at least the digit count. -/
def natToCharsCore : Nat → Nat → List Char → List Char
  | 0, _, acc => acc
  | fuel + 1, n, acc =>
    if n < 10 then digitChar n :: acc
    else natToCharsCore fuel (n / 10) (digitChar (n % 10) :: acc)

/-- Decimal rendering of a natural number, modelling JS number-to-string
for the non-negative integers appearing in this code base. -/
def natToChars (n : Nat) : List Char :=
  natToCharsCore (n + 1) n []

/-- Decimal rendering of an integer. -/
def intToChars (i : Int) : List Char :=
  if i < 0 then '-' :: natToChars i.natAbs else natToChars i.toNat

/-! ## Constants from `src/index.ts` -/

def DEFAULT_MODEL_ID : String := "@cf/meta/llama-3.3-70b-instruct-fp8-fast"

def EMBEDDING_MODEL_ID : String := "@cf/baai/bge-base-en-v1.5"

def PDF_EXTRACT_MODEL_ID : String := "@cf/pdf/extract-text"

def OCR_MODEL_ID : String := "@cf/unum/uform-gen2-qwen-500m"

def SYSTEM_PROMPT : String :=
  "You are a helpful, friendly assistant. Provide concise and accurate responses."

def MAX_HISTORY : Nat := 20

def MAX_CONTEXT_CHUNKS : Nat := 4

def EMBEDDING_MAX_CHARS : Nat := 2048

def DOCUMENT_MAX_CHARS : Nat := 50000

def CHUNK_SIZE : Nat := 800

def CHUNK_OVERLAP : Nat := 150

def MAX_DOC_CHUNKS : Nat := 60

/-! ## Chunker (`chunkText`) -/

/-- Model of `text.replace(/\n{3,}/g, "\n\n")`: every maximal run of
newlines is emitted capped at two newlines.  `run` counts the newlines of
the current run. -/
def collapseAux : Nat → List Char → List Char
  | run, [] => List.replicate (min run 2) '\n'
  | run, c :: rest =>
    if c = '\n' then collapseAux (run + 1) rest
    else List.replicate (min run 2) '\n' ++ c :: collapseAux 0 rest

def collapseNewlines (s : List Char) : List Char := collapseAux 0 s

/-- The normalized text `chunkText` operates on:
`text.replace(/\n{3,}/g, "\n\n").trim()`. -/
def normalizedOf (text : List Char) : List Char :=
  jsTrim (collapseNewlines text)

/-- The `while` loop of `chunkText`, annotated so that each produced chunk
is paired with the start index of the window it was sliced from.  `d + 1`
is the loop's `step = Math.max(1, chunkSize - overlap)` (callers pass
`d = chunkSize - overlap - 1` in truncated subtraction).  The fuel bounds
the iteration count; callers pass `s.length`, which always suffices because
the index strictly increases each iteration. -/
def chunkLoopW (s : List Char) (chunkSize d cap : Nat) :
    Nat → Nat → List (Nat × List Char) → List (Nat × List Char)
  | 0, _, acc => acc
  | fuel + 1, index, acc =>
    if index < s.length ∧ acc.length < cap then
      let slice := jsTrim ((s.drop index).take chunkSize)
      let acc' := if 0 < slice.length then acc ++ [(index, slice)] else acc
      if s.length ≤ index + chunkSize then acc'
      else chunkLoopW s chunkSize d cap fuel (index + (d + 1)) acc'
    else acc

/-- The chunks of `chunkText`, each with its window start index. -/
def chunkWindows (text : List Char) (chunkSize : Nat := CHUNK_SIZE)
    (overlap : Nat := CHUNK_OVERLAP) : List (Nat × List Char) :=
  let normalized := normalizedOf text
  if normalized.length = 0 then []
  else chunkLoopW normalized chunkSize (chunkSize - overlap - 1) MAX_DOC_CHUNKS
    normalized.length 0 []

/-- Model of `chunkText(text, chunkSize, overlap)`. -/
def chunkText (text : List Char) (chunkSize : Nat := CHUNK_SIZE)
    (overlap : Nat := CHUNK_OVERLAP) : List (List Char) :=
  (chunkWindows text chunkSize overlap).map Prod.snd

/-! ## Session store (`SessionDurableObject`) -/

/-- A chat message (`ChatMessage` in `src/types.ts`).  The `role` is kept
as a string because the Durable Object validates it at runtime. -/
structure ChatMessage where
  role : String
  content : String
  deriving DecidableEq

/-- The record persisted under the `"session"` storage key
(`StoredSessionRecord` in `src/index.ts`). -/
structure StoredSessionRecord where
  messages : List ChatMessage
  modelId : Option String
  createdAt : Option String
  updatedAt : Option String
  deriving DecidableEq

/-- What may sit under the `"session"` key: the current wrapped record, or
a legacy bare array of messages (the `StoredSessionRecord | ChatMessage[]`
union in `getSessionRecord`). -/
inductive SessionStoredValue where
  | record (r : StoredSessionRecord)
  | legacy (messages : List ChatMessage)
  deriving DecidableEq

/-- The Durable Object's storage: the `"session"` key and the legacy
`"messages"` key. -/
structure SessionStorage where
  session : Option SessionStoredValue
  legacyMessages : Option (List ChatMessage)
  deriving DecidableEq

/-- Model of `SessionDurableObject.getSessionRecord`.  Reading can mutate
storage: a bare array found under the legacy `"messages"` key is deleted
from storage.  `now` stands for `new Date().toISOString()`. -/
def getSessionRecord (st : SessionStorage) (now : String) :
    StoredSessionRecord × SessionStorage :=
  match st.session with
  | some (SessionStoredValue.record r) =>
    (⟨r.messages, r.modelId.map jsTrimS, r.createdAt, r.updatedAt⟩, st)
  | some (SessionStoredValue.legacy msgs) =>
    (⟨msgs, none, some now, some now⟩, st)
  | none =>
    match st.legacyMessages with
    | some msgs =>
      (⟨msgs, none, some now, some now⟩, { st with legacyMessages := none })
    | none => (⟨[], none, some now, some now⟩, st)

/-- Model of `SessionDurableObject.persistMessage`: read the record, append
the message, cap the list with `slice(-MAX_HISTORY)`, update the model id
and timestamps, and write the record back under the `"session"` key. -/
def persistMessage (st : SessionStorage) (message : ChatMessage)
    (modelId : Option String) (now : String) : SessionStorage :=
  let sessionAndStore := getSessionRecord st now
  let session := sessionAndStore.1
  let messages := sliceLast MAX_HISTORY (session.messages ++ [message])
  let newModelId := match modelId with
    | some m => if m = "" then session.modelId else some m
    | none => session.modelId
  let createdAt := match session.createdAt with
    | some c => if c = "" then some now else some c
    | none => some now
  { sessionAndStore.2 with
    session := some (SessionStoredValue.record
      ⟨messages, newModelId, createdAt, some now⟩) }

/-- The message payload of a `POST /messages` request as seen at runtime:
the role is an arbitrary string and the content may fail the
`typeof content === "string"` check (modelled by `none`). -/
structure IncomingMessage where
  role : String
  content : Option String
  deriving DecidableEq

/-- The parsed JSON body of a `POST /messages` request. -/
structure PostBody where
  message : Option IncomingMessage
  modelId : Option String
  deriving DecidableEq

/-- Model of the `POST /messages` branch of `SessionDurableObject.fetch`:
validates the payload, then persists.  Returns the HTTP status and the
resulting storage.  `body = none` models a JSON parse failure
(`safeJson` returning `null`). -/
def sessionPost (st : SessionStorage) (body : Option PostBody) (now : String) :
    Nat × SessionStorage :=
  let message := body.bind (fun b => b.message)
  let modelId := match body.bind (fun b => b.modelId) with
    | some m => if jsTrimS m ≠ "" then some (jsTrimS m) else none
    | none => none
  match message with
  | none => (400, st)
  | some m =>
    if (m.role ≠ "assistant" ∧ m.role ≠ "user") ∨ m.content = none then (400, st)
    else (204, persistMessage st ⟨m.role, m.content.getD ""⟩ modelId now)

/-- The JSON payload of the `GET /messages` branch of
`SessionDurableObject.fetch`. -/
structure HistoryPayload where
  messages : List ChatMessage
  modelId : Option String
  createdAt : Option String
  updatedAt : Option String
  deriving DecidableEq

/-- Model of the `GET /messages` branch of `SessionDurableObject.fetch`. -/
def sessionGet (st : SessionStorage) (now : String) :
    HistoryPayload × SessionStorage :=
  let sessionAndStore := getSessionRecord st now
  (⟨sessionAndStore.1.messages, sessionAndStore.1.modelId,
    sessionAndStore.1.createdAt, sessionAndStore.1.updatedAt⟩,
   sessionAndStore.2)

/-- Model of the worker-side `fetchSessionHistory`: reads the Durable
Object's `GET /messages` payload and caps the messages with
`slice(-MAX_HISTORY)`. -/
def fetchSessionHistory (st : SessionStorage) (now : String) :
    HistoryPayload × SessionStorage :=
  let payloadAndStore := sessionGet st now
  (⟨sliceLast MAX_HISTORY payloadAndStore.1.messages, payloadAndStore.1.modelId,
    payloadAndStore.1.createdAt, payloadAndStore.1.updatedAt⟩,
   payloadAndStore.2)

/-- The message list currently visible in the Durable Object's storage. -/
def storedMessages (st : SessionStorage) (now : String) : List ChatMessage :=
  (getSessionRecord st now).1.messages

/-- A sequence of appends through `persistMessage`, each entry carrying the
message and the model id passed alongside it. -/
def persistAll (st : SessionStorage) (entries : List (ChatMessage × Option String))
    (now : String) : SessionStorage :=
  entries.foldl (fun s e => persistMessage s e.1 e.2 now) st

/-- All messages reachable anywhere in the Durable Object's storage. -/
def allStoredMessages (st : SessionStorage) : List ChatMessage :=
  (match st.session with
   | some (SessionStoredValue.record r) => r.messages
   | some (SessionStoredValue.legacy msgs) => msgs
   | none => []) ++ st.legacyMessages.getD []

/-- Every message anywhere in storage has role `"user"` or `"assistant"`. -/
def storageRolesOk (st : SessionStorage) : Prop :=
  ∀ m ∈ allStoredMessages st, m.role = "user" ∨ m.role = "assistant"

/-! ## Model selection (`selectModelId`) -/

/-- Model of `selectModelId`.  `requestedModelId = none` covers both an
absent field and a non-string field (the `typeof` check). -/
def selectModelId (requestedModelId : Option String)
    (storedModelId : Option String) (fallbackModelId : String) : String :=
  match requestedModelId with
  | some r =>
    if jsTrimS r ≠ "" then jsTrimS r
    else match storedModelId with
      | some s => if jsTrimS s ≠ "" then jsTrimS s else fallbackModelId
      | none => fallbackModelId
  | none =>
    match storedModelId with
    | some s => if jsTrimS s ≠ "" then jsTrimS s else fallbackModelId
    | none => fallbackModelId

/-! ## Document extraction and ingestion (`handleDocumentUpload`) -/

/-- Model of `rawText.replace(/\r\n/g, "\n")`. -/
def normalizeCRLF : List Char → List Char
  | [] => []
  | '\r' :: '\n' :: rest => '\n' :: normalizeCRLF rest
  | c :: rest => c :: normalizeCRLF rest

/-- Substring test used to model the `/No such model/i` regular
expression (after lower-casing both sides). -/
def containsChars (hay needle : List Char) : Bool :=
  (List.range (hay.length + 1)).any (fun i => needle.isPrefixOf (hay.drop i))

/-- Model of `/No such model/i.test(error.message)`. -/
def noSuchModelIn (msg : List Char) : Bool :=
  containsChars (toLowerChars msg) "no such model".data

/-- An uploaded `File`: its name, declared MIME type, and the text
returned by `file.text()`. -/
structure UploadFile where
  name : List Char
  mime : List Char
  content : List Char
  deriving DecidableEq

/-- The result of `extractTextFromUpload`.  Source kinds are kept as the
strings the code uses (`"manual" | "text-file" | "pdf" | "image"`). -/
structure ExtractedDocument where
  text : List Char
  sourceType : List Char
  originalName : Option (List Char)
  deriving DecidableEq

/-- The shape of a PDF extraction capability response
(`PdfExtractionResponse`): an optional whole-document text and optional
per-page texts. -/
structure PdfExtractionResponse where
  text : Option (List Char)
  pages : Option (List (Option (List Char)))
  deriving DecidableEq

/-- Model of `extractTextFromPdf`: the capability outcome is a parameter;
an exception anywhere is mapped through the `catch` clause. -/
def extractTextFromPdf (outcome : Except (List Char) PdfExtractionResponse) :
    Except (List Char) (List Char) :=
  match outcome with
  | Except.ok result =>
    let segments :=
      (match result.text with | some t => [t] | none => []) ++
      (match result.pages with | some pages => pages.filterMap id | none => [])
    let combined := jsTrim (List.intercalate "\n\n".data segments)
    if combined.length ≠ 0 then Except.ok combined
    else Except.error "Unable to extract text from the PDF file.".data
  | Except.error e =>
    if noSuchModelIn e then
      Except.error
        "PDF extraction requires enabling @cf/pdf/extract-text in Workers AI.".data
    else Except.error "Unable to extract text from the PDF file.".data

/-- An OCR capability response: either a flat string or an object whose
textual candidates are `text`, `description ?? caption`, `output` and
`data.text`. -/
inductive OcrResult where
  | flat (s : List Char)
  | obj (text description caption output dataText : Option (List Char))
  deriving DecidableEq

/-- Model of `extractTextFromImage` with the capability outcome a
parameter. -/
def extractTextFromImage (outcome : Except (List Char) OcrResult) :
    Except (List Char) (List Char) :=
  match outcome with
  | Except.ok r =>
    let textCandidates := match r with
      | OcrResult.flat s => [s]
      | OcrResult.obj text description caption output dataText =>
        (match text with | some t => [t] | none => []) ++
        (match (match description with | some d => some d | none => caption) with
         | some d => [d] | none => []) ++
        (match output with | some o => [o] | none => []) ++
        (match dataText with | some t => [t] | none => [])
    let combined := List.intercalate "\n".data
      ((textCandidates.map jsTrim).filter (fun s => s.length ≠ 0))
    if combined.length ≠ 0 then Except.ok combined
    else Except.error
      "Unable to extract text from the image with the selected model.".data
  | Except.error e =>
    if noSuchModelIn e then
      Except.error ("Image-to-text model ".data ++ OCR_MODEL_ID.data ++
        " is not available on this account. Choose another model from Workers AI Models or adjust the config.".data)
    else Except.error
      "Unable to extract text from the image with the selected model.".data

/-- Model of `extractTextFromUpload`: classify by MIME type or file-name
extension; an unclassifiable kind throws the unsupported-file-type error. -/
def extractTextFromUpload (file : UploadFile)
    (pdfOutcome : Except (List Char) PdfExtractionResponse)
    (imageOutcome : Except (List Char) OcrResult) :
    Except (List Char) ExtractedDocument :=
  let name := file.name
  let lowerName := toLowerChars name
  let mime := toLowerChars file.mime
  if "text/".data.isPrefixOf mime || ".txt".data.isSuffixOf lowerName ||
      ".md".data.isSuffixOf lowerName || ".json".data.isSuffixOf lowerName ||
      ".csv".data.isSuffixOf lowerName then
    Except.ok ⟨file.content, "text-file".data, some name⟩
  else if mime = "application/pdf".data || ".pdf".data.isSuffixOf lowerName then
    match extractTextFromPdf pdfOutcome with
    | Except.ok t => Except.ok ⟨t, "pdf".data, some name⟩
    | Except.error e => Except.error e
  else if "image/".data.isPrefixOf mime then
    match extractTextFromImage imageOutcome with
    | Except.ok t => Except.ok ⟨t, "image".data, some name⟩
    | Except.error e => Except.error e
  else
    Except.error ("Unsupported file type \"".data ++
      (if mime.length ≠ 0 then mime else lowerName) ++ "\"".data)

/-- The request body of `POST /api/docs`: a multipart form (optional
title, text and file fields) or a JSON body (`none` inside `jsonBody`
models a JSON parse failure, the pair is `(title?, text?)`). -/
inductive UploadBody where
  | multipart (title : Option (List Char)) (text : Option (List Char))
      (file : Option UploadFile)
  | jsonBody (body : Option (Option (List Char) × Option (List Char)))
  deriving DecidableEq

/-- The data flowing out of the validation part of `handleDocumentUpload`,
just before embedding generation. -/
structure PreparedUpload where
  title : List Char
  sourceType : List Char
  originalFileName : Option (List Char)
  chunks : List (List Char)
  deriving DecidableEq

/-- The tail of `handleDocumentUpload` after the raw text and metadata are
assembled: the `x-source-type` override, CRLF normalization, the emptiness
check (400), the document-size cap, chunking, and the no-chunks check
(400).  Errors carry the HTTP status they surface with. -/
def uploadFinalize (title : List Char) (sourceType : List Char)
    (originalFileName : Option (List Char)) (xSourceType : Option (List Char))
    (rawText : List Char) : Except (Nat × List Char) PreparedUpload :=
  let sourceType' := match xSourceType with | some s => s | none => sourceType
  let cleaned := jsTrim (normalizeCRLF rawText)
  if cleaned.length = 0 then
    Except.error (400, "Document content is required".data)
  else
    let limited :=
      if DOCUMENT_MAX_CHARS < cleaned.length then cleaned.take DOCUMENT_MAX_CHARS
      else cleaned
    let chunks := ((chunkText limited).map jsTrim).filter
      (fun chunk => chunk.length ≠ 0)
    if chunks.length = 0 then
      Except.error (400, "No textual content found to index".data)
    else Except.ok ⟨title, sourceType', originalFileName, chunks⟩

/-- The validation half of `handleDocumentUpload`: parse the body, run
extraction when a file is present (an extraction exception surfaces as a
500 through the handler's `catch`), merge extracted and supplied text, and
finalize. -/
def uploadPrepared (body : UploadBody) (xSourceType : Option (List Char))
    (pdfOutcome : Except (List Char) PdfExtractionResponse)
    (imageOutcome : Except (List Char) OcrResult) :
    Except (Nat × List Char) PreparedUpload :=
  match body with
  | UploadBody.jsonBody none =>
    Except.error (400, "Invalid document payload".data)
  | UploadBody.jsonBody (some (titleField, textField)) =>
    let title := match titleField with
      | some t => if (jsTrim t).length ≠ 0 then jsTrim t
          else "Untitled document".data
      | none => "Untitled document".data
    let rawText := match textField with
      | some t => if (jsTrim t).length ≠ 0 then t else []
      | none => []
    uploadFinalize title "manual".data none xSourceType rawText
  | UploadBody.multipart titleField textField fileField =>
    let title0 := match titleField with
      | some t => if (jsTrim t).length ≠ 0 then jsTrim t
          else "Untitled document".data
      | none => "Untitled document".data
    let rawText0 := match textField with
      | some t => if (jsTrim t).length ≠ 0 then t else []
      | none => []
    match fileField with
    | none => uploadFinalize title0 "manual".data none xSourceType rawText0
    | some file =>
      match extractTextFromUpload file pdfOutcome imageOutcome with
      | Except.error e => Except.error (500, e)
      | Except.ok extraction =>
        let originalFileName := match extraction.originalName with
          | some n => n
          | none => file.name
        let title1 := if originalFileName.length ≠ 0 then originalFileName
          else title0
        let combined := List.intercalate "\n\n".data
          (([extraction.text, rawText0]).filter (fun v => (jsTrim v).length ≠ 0))
        uploadFinalize title1 extraction.sourceType (some originalFileName)
          xSourceType combined

/-- One entry of a batch embedding response: the `embedding` field may be
missing or not an array (`none`). -/
structure EmbeddingEntry where
  embedding : Option (List Int)
  deriving DecidableEq

/-- A batch embedding response (`EmbeddingResponse`): the `data` field may
be missing. -/
structure EmbeddingResponse where
  data : Option (List EmbeddingEntry)
  deriving DecidableEq

/-- Vector record metadata as upserted into Vectorize. -/
structure VectorMetadata where
  text : List Char
  title : List Char
  docId : List Char
  chunkIndex : Nat
  uploadedAt : List Char
  sourceType : List Char
  originalFileName : Option (List Char)
  deriving DecidableEq

/-- A vector record `{id, vector, metadata}` as upserted into Vectorize. -/
structure VectorRecord where
  id : List Char
  vector : List Int
  metadata : VectorMetadata
  deriving DecidableEq

/-- The count-mismatch error message thrown by
`generateEmbeddingsForChunks`. -/
def mismatchMessage (responseLength chunkCount : Nat) : List Char :=
  "Embedding response length ".data ++ natToChars responseLength ++
    " did not match chunk count ".data ++ natToChars chunkCount

/-- The no-usable-vectors error message thrown by
`generateEmbeddingsForChunks`. -/
def noVectorsMessage : List Char :=
  "Embedding model ".data ++ EMBEDDING_MODEL_ID.data ++
    " returned no vectors for provided content.".data

/-- Whether the response holds a usable embedding (a non-empty array) for
chunk `i`: the condition under which `generateEmbeddingsForChunks` does
not skip chunk `i`. -/
def validEmbeddingAt (resp : EmbeddingResponse) (i : Nat) : Bool :=
  match ((resp.data.getD []).get? i).bind (fun entry => entry.embedding) with
  | some v => decide (v.length ≠ 0)
  | none => false

/-- Model of `generateEmbeddingsForChunks`.  The embedding capability call
is the `embedOutcome` parameter (`Except.error` models `env.AI.run`
throwing); `now` stands for `new Date().toISOString()`. -/
def generateEmbeddingsForChunks (chunks : List (List Char)) (maxChunkLength : Nat)
    (docId : List Char) (title : List Char) (sourceType : List Char)
    (originalFileName : Option (List Char))
    (embedOutcome : Except (List Char) EmbeddingResponse) (now : List Char) :
    Except (List Char) (List VectorRecord) :=
  let truncatedChunks := chunks.map (fun chunk =>
    if maxChunkLength < chunk.length then chunk.take maxChunkLength else chunk)
  match embedOutcome with
  | Except.error e => Except.error e
  | Except.ok embeddings =>
    let embeddingData := embeddings.data.getD []
    if embeddingData.length ≠ truncatedChunks.length then
      Except.error (mismatchMessage embeddingData.length truncatedChunks.length)
    else
      let upserts := truncatedChunks.enum.filterMap (fun p =>
        match (embeddingData.get? p.1).bind (fun entry => entry.embedding) with
        | some embedding =>
          if embedding.length = 0 then none
          else some (⟨docId ++ '#' :: natToChars p.1, embedding,
            ⟨p.2, title, docId, p.1, now, sourceType, originalFileName⟩⟩ :
              VectorRecord)
        | none => none)
      if upserts.length = 0 then Except.error noVectorsMessage
      else Except.ok upserts

/-- The observable outcome of `handleDocumentUpload`: the HTTP status, the
error message (if any), and the records passed to `VECTORIZE.upsert`
(empty when the handler failed before upserting). -/
structure HandlerResult where
  status : Nat
  errorMsg : Option (List Char)
  upserted : List VectorRecord
  deriving DecidableEq

/-- Model of `handleDocumentUpload`: validation, embedding generation, and
the upsert; any thrown error is caught at the top and surfaces as a 500
carrying the error's message (validation failures keep their 400). -/
def handleDocumentUpload (body : UploadBody) (xSourceType : Option (List Char))
    (pdfOutcome : Except (List Char) PdfExtractionResponse)
    (imageOutcome : Except (List Char) OcrResult)
    (embedOutcome : Except (List Char) EmbeddingResponse)
    (docId : List Char) (now : List Char) : HandlerResult :=
  match uploadPrepared body xSourceType pdfOutcome imageOutcome with
  | Except.error (status, msg) => ⟨status, some msg, []⟩
  | Except.ok prep =>
    match generateEmbeddingsForChunks prep.chunks EMBEDDING_MAX_CHARS docId
      prep.title prep.sourceType prep.originalFileName embedOutcome now with
    | Except.error msg => ⟨500, some msg, []⟩
    | Except.ok upserts => ⟨200, none, upserts⟩

/-! ## Retrieval context (`buildRetrievalContext`, `embedText`) -/

/-- The metadata of a Vectorize match, as read defensively by
`buildRetrievalContext` (each field may be missing or of the wrong
runtime type, modelled by `none`). -/
structure MatchMetadata where
  text : Option String
  title : Option String
  chunkIndex : Option Int
  deriving DecidableEq

/-- A Vectorize match; `score` may be missing or non-numeric. -/
structure VectorizeMatch where
  score : Option Int
  metadata : Option MatchMetadata
  deriving DecidableEq

/-- A Vectorize query response; the `matches` array may be missing and may
contain null entries.  (The field is called `matches` in the source;
`matches` is a reserved word in Lean, hence `matchList`.) -/
structure VectorizeQueryResponse where
  matchList : Option (List (Option VectorizeMatch))
  deriving DecidableEq

/-- An ephemeral context snippet (`ContextSnippet` in `src/index.ts`). -/
structure ContextSnippet where
  title : Option String
  text : String
  index : Option Int
  score : Option Int
  deriving DecidableEq

/-- Model of `embedText`: the single-text embedding call, returning `none`
on inference error or when the response carries no embedding array.  The
capability outcome is the `aiOutcome` parameter; the request-side
truncation to `EMBEDDING_MAX_CHARS` affects only what is sent, which the
outcome already reflects. -/
def embedText (aiOutcome : Except (List Char) EmbeddingResponse) :
    Option (List Int) :=
  match aiOutcome with
  | Except.error _ => none
  | Except.ok result =>
    match ((result.data.getD []).get? 0).bind (fun e => e.embedding) with
    | some embedding => some embedding
    | none => none

/-- The trimmed snippet text `buildRetrievalContext` reads from a match's
metadata (empty when missing or non-string). -/
def matchSnippetText (m : VectorizeMatch) : String :=
  match m.metadata with
  | some md => match md.text with | some t => jsTrimS t | none => ""
  | none => ""

/-- The `for`-loop of `buildRetrievalContext`: collect snippets with
usable text, stopping once `MAX_CONTEXT_CHUNKS` have been gathered. -/
def collectContexts :
    List (Option VectorizeMatch) → List ContextSnippet → List ContextSnippet
  | [], acc => acc
  | none :: rest, acc => collectContexts rest acc
  | some mt :: rest, acc =>
    let snippet := matchSnippetText mt
    if snippet = "" then collectContexts rest acc
    else
      let title := match mt.metadata.bind (fun md => md.title) with
        | some t => if jsTrimS t ≠ "" then some (jsTrimS t) else none
        | none => none
      let acc' := acc ++
        [⟨title, snippet, mt.metadata.bind (fun md => md.chunkIndex), mt.score⟩]
      if MAX_CONTEXT_CHUNKS ≤ acc'.length then acc'
      else collectContexts rest acc'

/-- One rendered entry of the synthesized context block:
`Context i [from "title"] [(chunk j)]:\n<text>`. -/
def renderContext (context : ContextSnippet) (indexInList : Nat) : String :=
  let headerParts :=
    ["Context " ++ String.mk (natToChars (indexInList + 1))] ++
    (match context.title with
     | some t => ["from \"" ++ t ++ "\""]
     | none => []) ++
    (match context.index with
     | some j => ["(chunk " ++ String.mk (intToChars (j + 1)) ++ ")"]
     | none => [])
  String.intercalate " " headerParts ++ ":\n" ++ context.text

/-- The context block: rendered snippets joined by blank lines. -/
def contextBlock (contexts : List ContextSnippet) : String :=
  String.intercalate "\n\n" (contexts.enum.map (fun p => renderContext p.2 p.1))

/-- The instruction wrapped around the context block. -/
def contextInstruction : String :=
  "Use the reference material below to answer the user. If none of it is relevant, answer based on your general knowledge.\n\n"

/-- Model of `buildRetrievalContext`.  The embedding call and the
Vectorize query are outcome parameters; the surrounding `try`/`catch` maps
any thrown error to the empty context. -/
def buildRetrievalContext (question : String)
    (embedOutcome : Except (List Char) EmbeddingResponse)
    (queryOutcome : Except (List Char) VectorizeQueryResponse) :
    List ChatMessage × List ContextSnippet :=
  let trimmed := jsTrimS question
  if trimmed = "" then ([], [])
  else
    let attempt : Except (List Char) (List ChatMessage × List ContextSnippet) :=
      match embedText embedOutcome with
      | none => Except.ok ([], [])
      | some _ =>
        match queryOutcome with
        | Except.error e => Except.error e
        | Except.ok queryResult =>
          let contexts := collectContexts (queryResult.matchList.getD []) []
          if contexts.length = 0 then Except.ok ([], [])
          else Except.ok
            ([⟨"system", contextInstruction ++ contextBlock contexts⟩], contexts)
    match attempt with
    | Except.ok r => r
    | Except.error _ => ([], [])

/-! ## Client stream framing (`prependContextStream`) -/

/-- A left brace as a character (avoids brace characters inside string
literals). -/
def lbrace : Char := '\x7b'

/-- A right brace as a character. -/
def rbrace : Char := '\x7d'

/-- JSON string escaping for one character, as performed by
`JSON.stringify` for the characters this code base can produce. -/
def jsonEscapeChar (c : Char) : List Char :=
  if c = '"' then ['\\', '"']
  else if c = '\\' then ['\\', '\\']
  else if c = '\n' then ['\\', 'n']
  else if c = '\r' then ['\\', 'r']
  else if c = '\t' then ['\\', 't']
  else [c]

/-- JSON string escaping over a character list. -/
def jsonEscape : List Char → List Char
  | [] => []
  | c :: rest => jsonEscapeChar c ++ jsonEscape rest

/-- A JSON string literal. -/
def jsonStringLit (s : String) : List Char :=
  '"' :: jsonEscape s.data ++ ['"']

/-- The present (non-`undefined`) fields of one serialized snippet object,
in source order. -/
def snippetJsonFields (s : ContextSnippet) : List (List Char) :=
  (match s.title with
   | some t => ["\"title\":".data ++ jsonStringLit t]
   | none => []) ++
  ["\"text\":".data ++ jsonStringLit s.text] ++
  (match s.index with
   | some i => ["\"index\":".data ++ intToChars i]
   | none => []) ++
  (match s.score with
   | some sc => ["\"score\":".data ++ intToChars sc]
   | none => [])

/-- `JSON.stringify` of one snippet object `{title, text, index, score}`;
fields whose value is `undefined` are omitted. -/
def snippetJson (s : ContextSnippet) : List Char :=
  lbrace :: List.intercalate [','] (snippetJsonFields s) ++ [rbrace]

/-- The framing payload `JSON.stringify({context: [...]})` built by
`prependContextStream`. -/
def contextPayload (snippets : List ContextSnippet) : List Char :=
  lbrace :: "\"context\":[".data ++
    List.intercalate [','] (snippets.map snippetJson) ++ [']', rbrace]

/-- Model of `prependContextStream`.  A stream is its list of chunks (each
chunk a character list standing for the encoded bytes).  With no snippets
the model stream is returned unchanged; otherwise one synthetic chunk
holding the payload line is emitted first and every model chunk follows
unchanged, in order. -/
def prependContextStream (stream : List (List Char))
    (snippets : List ContextSnippet) : List (List Char) :=
  if snippets.length = 0 then stream
  else (contextPayload snippets ++ ['\n']) :: stream

/-! ## Auxiliary lemmas -/

theorem digitChar_ne_newline (d : Nat) : digitChar d ≠ '\n' := by
  unfold digitChar
  repeat' split
  all_goals decide

theorem natToCharsCore_mem (fuel n : Nat) (acc : List Char) :
    ∀ c ∈ natToCharsCore fuel n acc, c ∈ acc ∨ ∃ d, c = digitChar d := by
  induction fuel generalizing n acc with
  | zero => intro c hc; exact Or.inl hc
  | succ fuel ih =>
    intro c hc
    unfold natToCharsCore at hc
    split at hc
    · rcases List.mem_cons.mp hc with h | h
      · exact Or.inr ⟨n, h⟩
      · exact Or.inl h
    · rcases ih (n / 10) (digitChar (n % 10) :: acc) c hc with h | h
      · rcases List.mem_cons.mp h with h2 | h2
        · exact Or.inr ⟨n % 10, h2⟩
        · exact Or.inl h2
      · exact Or.inr h

theorem natToChars_ne_newline (n : Nat) : ∀ c ∈ natToChars n, c ≠ '\n' := by
  intro c hc
  rcases natToCharsCore_mem (n + 1) n [] c hc with h | ⟨d, rfl⟩
  · simp at h
  · exact digitChar_ne_newline d

theorem intToChars_ne_newline (i : Int) : ∀ c ∈ intToChars i, c ≠ '\n' := by
  intro c hc
  unfold intToChars at hc
  split at hc
  · rcases List.mem_cons.mp hc with rfl | h
    · decide
    · exact natToChars_ne_newline _ c h
  · exact natToChars_ne_newline _ c hc

theorem jsonEscapeChar_ne_newline (c c' : Char) (hc : c' ∈ jsonEscapeChar c) :
    c' ≠ '\n' := by
  unfold jsonEscapeChar at hc
  split at hc
  · rcases List.mem_cons.mp hc with rfl | h
    · decide
    · simp at h; subst h; decide
  · split at hc
    · rcases List.mem_cons.mp hc with rfl | h
      · decide
      · simp at h; subst h; decide
    · split at hc
      · rcases List.mem_cons.mp hc with rfl | h
        · decide
        · simp at h; subst h; decide
      · split at hc
        · rcases List.mem_cons.mp hc with rfl | h
          · decide
          · simp at h; subst h; decide
        · split at hc
          · rcases List.mem_cons.mp hc with rfl | h
            · decide
            · simp at h; subst h; decide
          · rename_i h1 h2 h3 h4 h5
            simp at hc
            subst hc
            exact h3

theorem jsonEscape_ne_newline (s : List Char) : ∀ c ∈ jsonEscape s, c ≠ '\n' := by
  induction s with
  | nil => intro c hc; simp [jsonEscape] at hc
  | cons a rest ih =>
    intro c hc
    unfold jsonEscape at hc
    rcases List.mem_append.mp hc with h | h
    · exact jsonEscapeChar_ne_newline a c h
    · exact ih c h

theorem jsonStringLit_ne_newline (s : String) :
    ∀ c ∈ jsonStringLit s, c ≠ '\n' := by
  intro c hc
  unfold jsonStringLit at hc
  rcases List.mem_cons.mp hc with rfl | h
  · decide
  · rcases List.mem_append.mp h with h2 | h2
    · exact jsonEscape_ne_newline _ c h2
    · simp at h2; subst h2; decide

theorem intercalate_cons_cons (sep a b : List Char) (t : List (List Char)) :
    List.intercalate sep (a :: b :: t) = a ++ (sep ++ List.intercalate sep (b :: t)) := by
  simp [List.intercalate, List.intersperse_cons_cons]

theorem mem_intercalate_comma {xss : List (List Char)} {c : Char}
    (hc : c ∈ List.intercalate [','] xss) : c = ',' ∨ ∃ l ∈ xss, c ∈ l := by
  induction xss with
  | nil => simp [List.intercalate, List.intersperse] at hc
  | cons a t ih =>
    cases t with
    | nil =>
      simp [List.intercalate, List.intersperse] at hc
      exact Or.inr ⟨a, by simp, hc⟩
    | cons b t2 =>
      rw [intercalate_cons_cons] at hc
      rcases List.mem_append.mp hc with h | h
      · exact Or.inr ⟨a, by simp, h⟩
      · rcases List.mem_append.mp h with h1 | h1
        · simp at h1; subst h1; exact Or.inl rfl
        · rcases ih h1 with h2 | ⟨l, hl, hcl⟩
          · exact Or.inl h2
          · exact Or.inr ⟨l, List.mem_cons_of_mem a hl, hcl⟩

theorem snippetJsonFields_ne_newline (s : ContextSnippet) :
    ∀ l ∈ snippetJsonFields s, ∀ c ∈ l, c ≠ '\n' := by
  intro l hl c hcl
  unfold snippetJsonFields at hl
  simp only [List.mem_append] at hl
  rcases hl with ((h3 | h3) | h3) | h3
  · rcases htitle : s.title with _ | t <;> rw [htitle] at h3
    · simp at h3
    · rw [List.mem_singleton] at h3
      subst h3
      rcases List.mem_append.mp hcl with h4 | h4
      · exact (by decide : ∀ x ∈ "\"title\":".data, x ≠ '\n') c h4
      · exact jsonStringLit_ne_newline t c h4
  · rw [List.mem_singleton] at h3
    subst h3
    rcases List.mem_append.mp hcl with h4 | h4
    · exact (by decide : ∀ x ∈ "\"text\":".data, x ≠ '\n') c h4
    · exact jsonStringLit_ne_newline s.text c h4
  · rcases hindex : s.index with _ | i <;> rw [hindex] at h3
    · simp at h3
    · rw [List.mem_singleton] at h3
      subst h3
      rcases List.mem_append.mp hcl with h4 | h4
      · exact (by decide : ∀ x ∈ "\"index\":".data, x ≠ '\n') c h4
      · exact intToChars_ne_newline i c h4
  · rcases hscore : s.score with _ | sc <;> rw [hscore] at h3
    · simp at h3
    · rw [List.mem_singleton] at h3
      subst h3
      rcases List.mem_append.mp hcl with h4 | h4
      · exact (by decide : ∀ x ∈ "\"score\":".data, x ≠ '\n') c h4
      · exact intToChars_ne_newline sc c h4

theorem snippetJson_ne_newline (s : ContextSnippet) :
    ∀ c ∈ snippetJson s, c ≠ '\n' := by
  intro c hc
  unfold snippetJson at hc
  rcases List.mem_cons.mp hc with rfl | h
  · decide
  · rcases List.mem_append.mp h with h2 | h2
    · rcases mem_intercalate_comma h2 with rfl | ⟨l, hl, hcl⟩
      · decide
      · exact snippetJsonFields_ne_newline s l hl c hcl
    · rw [List.mem_singleton] at h2
      subst h2
      decide

theorem contextPayload_ne_newline (snippets : List ContextSnippet) :
    ∀ c ∈ contextPayload snippets, c ≠ '\n' := by
  intro c hc
  unfold contextPayload at hc
  rcases List.mem_cons.mp hc with rfl | h
  · decide
  · rcases List.mem_append.mp h with h2 | h2
    · rcases List.mem_append.mp h2 with h3 | h3
      · have : ∀ x ∈ "\"context\":[".data, x ≠ '\n' := by decide
        exact this c h3
      · rcases mem_intercalate_comma h3 with rfl | ⟨l, hl, hcl⟩
        · decide
        · rcases List.mem_map.mp hl with ⟨snip, _, rfl⟩
          exact snippetJson_ne_newline snip c hcl
    · simp at h2
      rcases h2 with rfl | rfl
      · decide
      · decide

/-! ## Claim C1 -/

/-- Claim C1: for every chat turn, the client-facing stream begins with
exactly one framing line (the snippets as JSON followed by a newline) if
and only if the snippet list is non-empty; the remaining bytes are exactly
the model stream's bytes, in order, unmodified; with no snippets the
client stream IS the model stream.  The payload itself contains no newline
character, so the framing is exactly one line. -/
theorem C1_stream_framing (stream : List (List Char))
    (snippets : List ContextSnippet) :
    (snippets = [] → prependContextStream stream snippets = stream) ∧
    (snippets ≠ [] →
      (prependContextStream stream snippets).flatten =
        (contextPayload snippets ++ ['\n']) ++ stream.flatten ∧
      ∀ c ∈ contextPayload snippets, c ≠ '\n') := by
  constructor
  · intro h; subst h; rfl
  · intro h
    refine ⟨?_, contextPayload_ne_newline snippets⟩
    have hlen : ¬ (snippets.length = 0) := fun hl => h (List.length_eq_zero.mp hl)
    unfold prependContextStream
    rw [if_neg hlen, List.flatten_cons]

/-- Witness for C1 at a concrete snippet list and stream. -/
theorem C1_stream_framing_witness :
    ([⟨none, "hi", none, none⟩] : List ContextSnippet) ≠ [] ∧
    ((prependContextStream ["chunk".data] [⟨none, "hi", none, none⟩]).flatten =
      (contextPayload [⟨none, "hi", none, none⟩] ++ ['\n']) ++
        ["chunk".data].flatten ∧
     ∀ c ∈ contextPayload [⟨none, "hi", none, none⟩], c ≠ '\n') :=
  ⟨by decide,
   (C1_stream_framing ["chunk".data] [⟨none, "hi", none, none⟩]).2 (by decide)⟩

/-! ## Claims C2 and C10: session history -/

theorem sliceLast_eq_reverse_take (n : Nat) (l : List α) :
    sliceLast n l = (List.take n l.reverse).reverse := by
  unfold sliceLast
  rw [List.take_reverse, List.reverse_reverse]

theorem sliceLast_append (n : Nat) (xs ys : List α) :
    sliceLast n (sliceLast n xs ++ ys) = sliceLast n (xs ++ ys) := by
  rw [sliceLast_eq_reverse_take, sliceLast_eq_reverse_take,
    sliceLast_eq_reverse_take, List.reverse_append, List.reverse_reverse,
    List.reverse_append, List.take_append_eq_append_take,
    List.take_append_eq_append_take, List.take_take,
    min_eq_left (Nat.sub_le _ _)]

theorem sliceLast_length_le (n : Nat) (l : List α) :
    (sliceLast n l).length ≤ n := by
  unfold sliceLast
  rw [List.length_drop]
  omega

theorem mem_sliceLast {x : α} {n : Nat} {l : List α}
    (h : x ∈ sliceLast n l) : x ∈ l :=
  List.mem_of_mem_drop h

theorem storedMessages_persist (st : SessionStorage) (m : ChatMessage)
    (mid : Option String) (now now2 : String) :
    storedMessages (persistMessage st m mid now) now2 =
      sliceLast MAX_HISTORY (storedMessages st now ++ [m]) := by
  obtain ⟨sess, legacy⟩ := st
  cases sess with
  | some v =>
    cases v with
    | record r => rfl
    | legacy msgs => rfl
  | none =>
    cases legacy with
    | some msgs => rfl
    | none => rfl

theorem storedMessages_persistAll (entries : List (ChatMessage × Option String))
    (st : SessionStorage) (m : ChatMessage) (mid : Option String) (now : String) :
    storedMessages (persistAll (persistMessage st m mid now) entries now) now =
      sliceLast MAX_HISTORY
        (storedMessages st now ++ m :: entries.map Prod.fst) := by
  induction entries generalizing st m mid with
  | nil =>
    show storedMessages (persistMessage st m mid now) now =
      sliceLast MAX_HISTORY (storedMessages st now ++ [m])
    exact storedMessages_persist st m mid now now
  | cons e rest ih =>
    have hstep : persistAll (persistMessage st m mid now) (e :: rest) now =
        persistAll (persistMessage (persistMessage st m mid now) e.1 e.2 now)
          rest now := rfl
    rw [hstep, ih (persistMessage st m mid now) e.1 e.2,
      storedMessages_persist st m mid now now, sliceLast_append]
    have hassoc : (storedMessages st now ++ [m]) ++ e.1 :: rest.map Prod.fst =
        storedMessages st now ++ m :: e.1 :: rest.map Prod.fst := by
      rw [List.append_assoc]
      rfl
    rw [hassoc]
    rfl

/-- Claim C2: after any non-empty sequence of appends, the stored message
list equals the last `MAX_HISTORY = 20` entries of the chronological
sequence (prior stored messages followed by the appended ones) — FIFO
eviction of the oldest — and its length never exceeds `MAX_HISTORY`. -/
theorem C2_history_capped (st : SessionStorage)
    (entries : List (ChatMessage × Option String)) (now : String)
    (h : entries ≠ []) :
    storedMessages (persistAll st entries now) now =
      sliceLast MAX_HISTORY (storedMessages st now ++ entries.map Prod.fst) ∧
    (storedMessages (persistAll st entries now) now).length ≤ MAX_HISTORY := by
  match entries, h with
  | e :: rest, _ =>
    have h1 := storedMessages_persistAll rest st e.1 e.2 now
    have hstep : persistAll st (e :: rest) now =
        persistAll (persistMessage st e.1 e.2 now) rest now := rfl
    constructor
    · rw [hstep, h1]
      rfl
    · rw [hstep, h1]
      exact sliceLast_length_le _ _

/-- Witness for C2: a session holding 25 prior messages still holds
exactly the 20 most recent after a further chat turn (one user and one
assistant append). -/
theorem C2_history_capped_witness :
    ([(⟨"user", "q"⟩, none), (⟨"assistant", "a"⟩, none)] :
        List (ChatMessage × Option String)) ≠ [] ∧
    (storedMessages
        (persistAll
          ⟨some (SessionStoredValue.record
            ⟨List.replicate 25 ⟨"user", "m"⟩, none, some "t0", some "t0"⟩), none⟩
          [(⟨"user", "q"⟩, none), (⟨"assistant", "a"⟩, none)] "t1") "t1" =
      sliceLast MAX_HISTORY
        (storedMessages
          ⟨some (SessionStoredValue.record
            ⟨List.replicate 25 ⟨"user", "m"⟩, none, some "t0", some "t0"⟩), none⟩
          "t1" ++
         ([(⟨"user", "q"⟩, none), (⟨"assistant", "a"⟩, none)] :
           List (ChatMessage × Option String)).map Prod.fst) ∧
     (storedMessages
        (persistAll
          ⟨some (SessionStoredValue.record
            ⟨List.replicate 25 ⟨"user", "m"⟩, none, some "t0", some "t0"⟩), none⟩
          [(⟨"user", "q"⟩, none), (⟨"assistant", "a"⟩, none)] "t1") "t1").length ≤
       MAX_HISTORY) :=
  ⟨by decide,
   C2_history_capped
     ⟨some (SessionStoredValue.record
       ⟨List.replicate 25 ⟨"user", "m"⟩, none, some "t0", some "t0"⟩), none⟩
     [(⟨"user", "q"⟩, none), (⟨"assistant", "a"⟩, none)] "t1" (by decide)⟩

theorem storageRolesOk_persist (st : SessionStorage) (msg : ChatMessage)
    (mid : Option String) (now : String) (hst : storageRolesOk st)
    (hrole : msg.role = "user" ∨ msg.role = "assistant") :
    storageRolesOk (persistMessage st msg mid now) := by
  obtain ⟨sess, legacy⟩ := st
  intro x hx
  cases sess with
  | some v =>
    cases v with
    | record r =>
      simp only [persistMessage, getSessionRecord, allStoredMessages] at hx
      rcases List.mem_append.mp hx with h | h
      · rcases List.mem_append.mp (mem_sliceLast h) with h2 | h2
        · exact hst x (List.mem_append.mp
            (show x ∈ r.messages ++ legacy.getD [] from
              List.mem_append.mpr (Or.inl h2)) |> List.mem_append.mpr)
        · rw [List.mem_singleton.mp h2]
          exact hrole
      · exact hst x (List.mem_append.mpr (Or.inr h))
    | legacy msgs =>
      simp only [persistMessage, getSessionRecord, allStoredMessages] at hx
      rcases List.mem_append.mp hx with h | h
      · rcases List.mem_append.mp (mem_sliceLast h) with h2 | h2
        · exact hst x (List.mem_append.mpr (Or.inl h2))
        · rw [List.mem_singleton.mp h2]
          exact hrole
      · exact hst x (List.mem_append.mpr (Or.inr h))
  | none =>
    cases legacy with
    | some msgs =>
      simp only [persistMessage, getSessionRecord, allStoredMessages] at hx
      rcases List.mem_append.mp hx with h | h
      · rcases List.mem_append.mp (mem_sliceLast h) with h2 | h2
        · exact hst x (List.mem_append.mpr (Or.inr (by simpa using h2)))
        · rw [List.mem_singleton.mp h2]
          exact hrole
      · simp at h
    | none =>
      simp only [persistMessage, getSessionRecord, allStoredMessages] at hx
      rcases List.mem_append.mp hx with h | h
      · rcases List.mem_append.mp (mem_sliceLast h) with h2 | h2
        · simp at h2
        · rw [List.mem_singleton.mp h2]
          exact hrole
      · simp at h

/-- Claim C10: the session store's message-append endpoint accepts only
messages whose role is exactly `"user"` or `"assistant"` and whose content
is a string; any other payload is rejected with 400 leaving storage
unchanged; consequently persisted history never gains a system-role
message. -/
theorem C10_message_validation (st : SessionStorage) (body : Option PostBody)
    (now : String) :
    (body.bind (fun b => b.message) = none →
      sessionPost st body now = (400, st)) ∧
    (∀ m, body.bind (fun b => b.message) = some m →
      ((m.role ≠ "assistant" ∧ m.role ≠ "user") ∨ m.content = none) →
      sessionPost st body now = (400, st)) ∧
    (∀ m, body.bind (fun b => b.message) = some m →
      (m.role = "assistant" ∨ m.role = "user") → m.content ≠ none →
      (sessionPost st body now).1 = 204) ∧
    (storageRolesOk st → storageRolesOk (sessionPost st body now).2) := by
  refine ⟨?_, ?_, ?_, ?_⟩
  · intro h
    simp [sessionPost, h]
  · intro m hm hbad
    simp only [sessionPost, hm]
    rw [if_pos hbad]
  · intro m hm hrole hcontent
    have hneg : ¬ ((m.role ≠ "assistant" ∧ m.role ≠ "user") ∨
        m.content = none) := by
      intro hc
      rcases hc with ⟨h1, h2⟩ | h3
      · rcases hrole with h | h
        · exact h1 h
        · exact h2 h
      · exact hcontent h3
    simp only [sessionPost, hm]
    rw [if_neg hneg]
  · intro hok
    cases hm : body.bind (fun b => b.message) with
    | none =>
      simp only [sessionPost, hm]
      exact hok
    | some m =>
      by_cases hc : (m.role ≠ "assistant" ∧ m.role ≠ "user") ∨ m.content = none
      · simp only [sessionPost, hm]
        rw [if_pos hc]
        exact hok
      · simp only [sessionPost, hm]
        rw [if_neg hc]
        have hrole : m.role = "user" ∨ m.role = "assistant" := by
          by_cases ha : m.role = "assistant"
          · exact Or.inr ha
          · by_cases hu : m.role = "user"
            · exact Or.inl hu
            · exact absurd (Or.inl ⟨ha, hu⟩) hc
        exact storageRolesOk_persist st ⟨m.role, m.content.getD ""⟩ _ now hok hrole

/-- Witness for C10: a system-role message is rejected with 400 and the
storage (holding one user message) is unchanged. -/
theorem C10_message_validation_witness :
    ((some ⟨some ⟨"system", some "x"⟩, none⟩ : Option PostBody).bind
        (fun b => b.message) = some ⟨"system", some "x"⟩) ∧
    sessionPost
      ⟨some (SessionStoredValue.record ⟨[⟨"user", "hi"⟩], none, none, none⟩),
        none⟩
      (some ⟨some ⟨"system", some "x"⟩, none⟩) "t" =
      (400,
       ⟨some (SessionStoredValue.record ⟨[⟨"user", "hi"⟩], none, none, none⟩),
         none⟩) :=
  ⟨rfl,
   (C10_message_validation
     ⟨some (SessionStoredValue.record ⟨[⟨"user", "hi"⟩], none, none, none⟩),
       none⟩
     (some ⟨some ⟨"system", some "x"⟩, none⟩) "t").2.1
     ⟨"system", some "x"⟩ rfl (by decide)⟩

/-! ## Claims C6 and C5: batch embedding alignment -/

theorem generateEmbeddings_mismatch (chunks : List (List Char)) (maxLen : Nat)
    (docId title sourceType : List Char) (origName : Option (List Char))
    (resp : EmbeddingResponse) (now : List Char)
    (hlen : (resp.data.getD []).length ≠ chunks.length) :
    generateEmbeddingsForChunks chunks maxLen docId title sourceType origName
      (Except.ok resp) now =
      Except.error (mismatchMessage (resp.data.getD []).length chunks.length) := by
  unfold generateEmbeddingsForChunks
  simp only [List.length_map]
  rw [if_pos hlen]

theorem generateEmbeddings_ok_length (chunks : List (List Char)) (maxLen : Nat)
    (docId title sourceType : List Char) (origName : Option (List Char))
    (resp : EmbeddingResponse) (now : List Char) (ups : List VectorRecord)
    (hok : generateEmbeddingsForChunks chunks maxLen docId title sourceType
      origName (Except.ok resp) now = Except.ok ups) :
    (resp.data.getD []).length = chunks.length := by
  by_contra hne
  rw [generateEmbeddings_mismatch chunks maxLen docId title sourceType origName
    resp now hne] at hok
  exact Except.noConfusion hok

/-- Claim C6: if the embedding capability returns a number of vectors
different from the number of input chunks, ingestion fails with the hard
count-mismatch error and nothing is upserted; a batch result is only ever
used (`Except.ok`) when its length equals the input length. -/
theorem C6_count_mismatch (body : UploadBody) (xSourceType : Option (List Char))
    (pdfOutcome : Except (List Char) PdfExtractionResponse)
    (imageOutcome : Except (List Char) OcrResult)
    (resp : EmbeddingResponse) (docId now : List Char) (prep : PreparedUpload)
    (hprep : uploadPrepared body xSourceType pdfOutcome imageOutcome =
      Except.ok prep)
    (hlen : (resp.data.getD []).length ≠ prep.chunks.length) :
    handleDocumentUpload body xSourceType pdfOutcome imageOutcome
      (Except.ok resp) docId now =
      ⟨500, some (mismatchMessage (resp.data.getD []).length prep.chunks.length),
        []⟩ ∧
    (∀ ups, generateEmbeddingsForChunks prep.chunks EMBEDDING_MAX_CHARS docId
        prep.title prep.sourceType prep.originalFileName (Except.ok resp) now ≠
        Except.ok ups) := by
  constructor
  · unfold handleDocumentUpload
    rw [hprep]
    dsimp only
    rw [generateEmbeddings_mismatch _ _ _ _ _ _ _ _ hlen]
  · intro ups hok
    exact hlen (generateEmbeddings_ok_length _ _ _ _ _ _ _ _ _ hok)

/-- Witness for C6: a two-chunk JSON upload against a response holding a
single vector fails with the mismatch error and upserts nothing. -/
theorem C6_count_mismatch_witness :
    uploadPrepared (UploadBody.jsonBody (some (none, some "hi".data))) none
      (Except.error []) (Except.error []) =
      Except.ok ⟨"Untitled document".data, "manual".data, none, ["hi".data]⟩ ∧
    ((⟨some []⟩ : EmbeddingResponse).data.getD []).length ≠
      (["hi".data] : List (List Char)).length ∧
    handleDocumentUpload (UploadBody.jsonBody (some (none, some "hi".data))) none
      (Except.error []) (Except.error []) (Except.ok ⟨some []⟩) "d".data "t".data =
      ⟨500, some (mismatchMessage 0 1), []⟩ := by
  refine ⟨rfl, by decide, ?_⟩
  have h := (C6_count_mismatch (UploadBody.jsonBody (some (none, some "hi".data)))
    none (Except.error []) (Except.error []) ⟨some []⟩ "d".data "t".data
    ⟨"Untitled document".data, "manual".data, none, ["hi".data]⟩
    rfl (by decide)).1
  exact h

theorem filterMap_eq_map_of_all {α β : Type _} (l : List α) (f : α → Option β)
    (g : α → β) (h : ∀ x ∈ l, f x = some (g x)) : l.filterMap f = l.map g := by
  induction l with
  | nil => rfl
  | cons a t ih =>
    have ha := h a (List.mem_cons_self a t)
    simp [List.filterMap_cons, ha,
      ih (fun x hx => h x (List.mem_cons_of_mem a hx))]

/-- Claim C5 (counterexample): with the first chunk's embedding missing,
ingestion succeeds but the surviving records carry chunk indices 1 and 2:
the indices are not dense and contiguous starting at 0. -/
theorem C5_counterexample :
    (generateEmbeddingsForChunks [['a'], ['b'], ['c']] EMBEDDING_MAX_CHARS
        "doc".data "T".data "manual".data none
        (Except.ok ⟨some [⟨none⟩, ⟨some [1]⟩, ⟨some [2]⟩]⟩) "t".data).map
        (fun ups => ups.map (fun r => r.metadata.chunkIndex)) =
      Except.ok [1, 2] ∧
    ([1, 2] : List Nat) ≠ List.range 2 := by
  constructor
  · rfl
  · decide

/-- Claim C5 (amended): when every chunk's embedding is present and
non-empty, the upserted records carry exactly the chunk indices
`0, 1, ..., count - 1`, dense and contiguous in chunk order; a skipped
chunk instead leaves a gap (see the counterexample). -/
theorem C5_amended_dense_indices (chunks : List (List Char))
    (docId title sourceType : List Char) (origName : Option (List Char))
    (resp : EmbeddingResponse) (now : List Char)
    (hne : chunks ≠ [])
    (hlen : (resp.data.getD []).length = chunks.length)
    (hvalid : ∀ i, i < chunks.length → validEmbeddingAt resp i = true) :
    (generateEmbeddingsForChunks chunks EMBEDDING_MAX_CHARS docId title
        sourceType origName (Except.ok resp) now).map
        (fun ups => ups.map (fun r => r.metadata.chunkIndex)) =
      Except.ok (List.range chunks.length) := by
  unfold generateEmbeddingsForChunks
  simp only [List.length_map]
  rw [if_neg (by omega)]
  set D := resp.data.getD [] with hD
  set T := chunks.map (fun chunk =>
    if EMBEDDING_MAX_CHARS < chunk.length then chunk.take EMBEDDING_MAX_CHARS
    else chunk) with hT
  have hTlen : T.length = chunks.length := List.length_map _ _
  have hall : ∀ p ∈ T.enum,
      (fun (p : Nat × List Char) =>
        match (D.get? p.1).bind (fun entry => entry.embedding) with
        | some embedding =>
          if embedding.length = 0 then none
          else some (⟨docId ++ '#' :: natToChars p.1, embedding,
            ⟨p.2, title, docId, p.1, now, sourceType, origName⟩⟩ : VectorRecord)
        | none => none) p =
      some (⟨docId ++ '#' :: natToChars p.1,
        ((D.get? p.1).bind (fun entry => entry.embedding)).getD [],
        ⟨p.2, title, docId, p.1, now, sourceType, origName⟩⟩ : VectorRecord) := by
    intro p hp
    have h1 : p.1 < chunks.length := by
      have := List.fst_lt_of_mem_enum hp
      omega
    have hv := hvalid p.1 h1
    unfold validEmbeddingAt at hv
    rw [← hD] at hv
    cases hbind : (D.get? p.1).bind (fun entry => entry.embedding) with
    | none => rw [hbind] at hv; simp at hv
    | some v =>
      rw [hbind] at hv
      simp only [decide_eq_true_eq] at hv
      simp only []
      rw [hbind]
      simp [hv]
  rw [filterMap_eq_map_of_all T.enum _ _ hall]
  have hlen2 : (T.enum.map (fun p =>
      (⟨docId ++ '#' :: natToChars p.1,
        ((D.get? p.1).bind (fun entry => entry.embedding)).getD [],
        ⟨p.2, title, docId, p.1, now, sourceType, origName⟩⟩ : VectorRecord))).length ≠ 0 := by
    simp only [List.length_map, List.enum_length]
    rw [hTlen]
    intro h0
    exact hne (List.length_eq_zero.mp h0)
  rw [if_neg hlen2]
  simp only [Except.map, List.map_map]
  have : ((fun r : VectorRecord => r.metadata.chunkIndex) ∘ (fun p : Nat × List Char =>
      (⟨docId ++ '#' :: natToChars p.1,
        ((D.get? p.1).bind (fun entry => entry.embedding)).getD [],
        ⟨p.2, title, docId, p.1, now, sourceType, origName⟩⟩ : VectorRecord))) =
      Prod.fst := by
    funext p
    rfl
  rw [this, List.enum_map_fst, hTlen]

/-- Witness for C5 (amended) at a concrete two-chunk ingestion. -/
theorem C5_amended_dense_indices_witness :
    (((⟨some [⟨some [3]⟩, ⟨some [4]⟩]⟩ : EmbeddingResponse).data.getD []).length =
      ([['a'], ['b']] : List (List Char)).length ∧
     ∀ i, i < ([['a'], ['b']] : List (List Char)).length →
       validEmbeddingAt ⟨some [⟨some [3]⟩, ⟨some [4]⟩]⟩ i = true) ∧
    (generateEmbeddingsForChunks [['a'], ['b']] EMBEDDING_MAX_CHARS "doc".data
        "T".data "manual".data none
        (Except.ok ⟨some [⟨some [3]⟩, ⟨some [4]⟩]⟩) "t".data).map
        (fun ups => ups.map (fun r => r.metadata.chunkIndex)) =
      Except.ok (List.range ([['a'], ['b']] : List (List Char)).length) :=
  ⟨⟨by decide, by decide⟩,
   C5_amended_dense_indices [['a'], ['b']] "doc".data "T".data "manual".data none
     ⟨some [⟨some [3]⟩, ⟨some [4]⟩]⟩ "t".data (by decide) (by decide) (by decide)⟩

/-! ## Claim C4: chunk coverage of the normalized text -/

theorem dropWhile_eq_self_of_all {p : Char → Bool} {l : List Char}
    (h : ∀ c ∈ l, p c = false) : l.dropWhile p = l := by
  cases l with
  | nil => rfl
  | cons a t =>
    rw [List.dropWhile_cons]
    simp [h a (List.mem_cons_self a t)]

theorem jsTrim_eq_self {l : List Char}
    (h : ∀ c ∈ l, jsWhitespace c = false) : jsTrim l = l := by
  unfold jsTrim
  rw [dropWhile_eq_self_of_all h,
    dropWhile_eq_self_of_all (fun c hc => h c (List.mem_reverse.mp hc)),
    List.reverse_reverse]

theorem jsTrim_eq_nil (l : List Char) (h : jsTrim l = []) :
    ∀ c ∈ l, jsWhitespace c = true := by
  unfold jsTrim at h
  rw [List.reverse_eq_nil_iff, List.dropWhile_eq_nil_iff] at h
  intro c hc
  have hsplit := List.takeWhile_append_dropWhile jsWhitespace l
  have hc2 : c ∈ List.takeWhile jsWhitespace l ++
      List.dropWhile jsWhitespace l := by rw [hsplit]; exact hc
  rcases List.mem_append.mp hc2 with h1 | h1
  · exact List.mem_takeWhile_imp h1
  · exact h c (List.mem_reverse.mpr h1)

theorem jsTrim_ne_nil {l : List Char} {c : Char} (hc : c ∈ l)
    (hw : jsWhitespace c = false) : jsTrim l ≠ [] := by
  intro h
  rw [jsTrim_eq_nil l h c hc] at hw
  exact Bool.noConfusion hw

theorem collapseAux_no_newline {l : List Char} (h : ∀ c ∈ l, c ≠ '\n') :
    collapseAux 0 l = l := by
  induction l with
  | nil => rfl
  | cons a t ih =>
    have ha : a ≠ '\n' := h a (List.mem_cons_self a t)
    simp only [collapseAux, if_neg ha]
    simp [ih (fun c hc => h c (List.mem_cons_of_mem a hc))]

theorem normalizedOf_replicate_a (n : Nat) :
    normalizedOf (List.replicate n 'a') = List.replicate n 'a' := by
  unfold normalizedOf collapseNewlines
  rw [collapseAux_no_newline
      (fun c hc => by rw [List.eq_of_mem_replicate hc]; decide),
    jsTrim_eq_self
      (fun c hc => by rw [List.eq_of_mem_replicate hc]; decide)]

theorem chunkLoopW_acc_mem (s : List Char) (cs d cap : Nat) :
    ∀ fuel index acc (w : Nat × List Char), w ∈ acc →
      w ∈ chunkLoopW s cs d cap fuel index acc := by
  intro fuel
  induction fuel with
  | zero => intro index acc w hw; exact hw
  | succ fuel ih =>
    intro index acc w hw
    unfold chunkLoopW
    dsimp only
    split
    · split
      · split
        · exact List.mem_append.mpr (Or.inl hw)
        · exact hw
      · apply ih
        split
        · exact List.mem_append.mpr (Or.inl hw)
        · exact hw
    · exact hw

theorem chunkLoopW_start_bound (s : List Char)
    (hs : ∀ c ∈ s, jsWhitespace c = false) (cap : Nat) :
    ∀ fuel index acc, ∀ w ∈ chunkLoopW s 800 649 cap fuel index acc,
      w ∈ acc ∨ (acc.length < cap ∧ w.1 ≤ index + (cap - acc.length - 1) * 650) := by
  intro fuel
  induction fuel with
  | zero => intro index acc w hw; exact Or.inl hw
  | succ fuel ih =>
    intro index acc w hw
    unfold chunkLoopW at hw
    dsimp only at hw
    by_cases hguard : index < s.length ∧ acc.length < cap
    · rw [if_pos hguard] at hw
      have hwne : (s.drop index).take 800 ≠ [] := by
        apply List.length_pos.mp
        rw [List.length_take, List.length_drop]
        exact Nat.lt_min.mpr ⟨by omega, by omega⟩
      obtain ⟨c, hcmem⟩ := List.exists_mem_of_ne_nil _ hwne
      have hcs : c ∈ s := List.mem_of_mem_drop (List.mem_of_mem_take hcmem)
      have hpush : 0 < (jsTrim ((s.drop index).take 800)).length :=
        List.length_pos.mpr (jsTrim_ne_nil hcmem (hs c hcs))
      simp only [if_pos hpush] at hw
      by_cases hbreak : s.length ≤ index + 800
      · rw [if_pos hbreak] at hw
        rcases List.mem_append.mp hw with h | h
        · exact Or.inl h
        · rw [List.mem_singleton] at h
          subst h
          exact Or.inr ⟨hguard.2, by omega⟩
      · rw [if_neg hbreak] at hw
        rcases ih (index + (649 + 1))
            (acc ++ [(index, jsTrim ((s.drop index).take 800))]) w hw with
          h | ⟨hlt, hle⟩
        · rcases List.mem_append.mp h with h2 | h2
          · exact Or.inl h2
          · rw [List.mem_singleton] at h2
            subst h2
            exact Or.inr ⟨hguard.2, by omega⟩
        · rw [List.length_append] at hlt hle
          refine Or.inr ⟨hguard.2, ?_⟩
          simp only [List.length_cons, List.length_nil] at hlt hle
          omega
    · rw [if_neg hguard] at hw
      exact Or.inl hw

/-- Claim C4 (counterexample): a 40000-character input (under the 50000
document cap) whose normalized text is 40000 characters of `a` has
position 39150 covered by no chunk's window: `chunkText` stops at
`MAX_DOC_CHUNKS = 60` windows, whose starts all lie at or below 38350, so
content beyond offset 39150 is lost. -/
theorem C4_counterexample :
    (List.replicate 40000 'a').length ≤ DOCUMENT_MAX_CHARS ∧
    39150 < (normalizedOf (List.replicate 40000 'a')).length ∧
    ∀ w ∈ chunkWindows (List.replicate 40000 'a'),
      ¬ (w.1 ≤ 39150 ∧ 39150 < w.1 + CHUNK_SIZE) := by
  refine ⟨by rw [List.length_replicate]; norm_num [DOCUMENT_MAX_CHARS], ?_, ?_⟩
  · rw [normalizedOf_replicate_a, List.length_replicate]
    norm_num
  · intro w hw
    unfold chunkWindows at hw
    rw [normalizedOf_replicate_a] at hw
    rw [if_neg (by rw [List.length_replicate]; norm_num)] at hw
    simp only [CHUNK_SIZE, CHUNK_OVERLAP, MAX_DOC_CHUNKS,
      List.length_replicate] at hw
    have h649 : (800 : Nat) - 150 - 1 = 649 := by norm_num
    rw [h649] at hw
    have hb := chunkLoopW_start_bound (List.replicate 40000 'a')
      (fun c hc => by rw [List.eq_of_mem_replicate hc]; decide) 60
      40000 0 [] w hw
    rcases hb with h | ⟨_, hle⟩
    · simp at h
    · intro hcov
      simp only [CHUNK_SIZE] at hcov
      omega

theorem chunkLoopW_covers (s : List Char) (cap : Nat) :
    ∀ fuel index acc,
      s.length ≤ fuel + index →
      s.length ≤ index + (cap - acc.length - 1) * 650 + 800 →
      acc.length < cap →
      ∀ j (hj : j < s.length), index ≤ j →
        jsWhitespace (s.get ⟨j, hj⟩) = false →
        ∃ w ∈ chunkLoopW s 800 649 cap fuel index acc,
          w.1 ≤ j ∧ j < w.1 + 800 := by
  intro fuel
  induction fuel with
  | zero =>
    intro index acc hfuel hH hcap j hj hij hws
    omega
  | succ fuel ih =>
    intro index acc hfuel hH hcap j hj hij hws
    have hguard : index < s.length ∧ acc.length < cap := ⟨by omega, hcap⟩
    unfold chunkLoopW
    dsimp only
    rw [if_pos hguard]
    by_cases hjin : j < index + 800
    · have h1 : j - index < (s.drop index).length := by
        rw [List.length_drop]
        omega
      have h3 : j - index < ((s.drop index).take 800).length := by
        rw [List.length_take, List.length_drop]
        exact Nat.lt_min.mpr ⟨by omega, by omega⟩
      have hmem : s.get ⟨j, hj⟩ ∈ (s.drop index).take 800 := by
        have h2 : ((s.drop index).take 800).get ⟨j - index, h3⟩ =
            s.get ⟨j, hj⟩ := by
          rw [List.get_eq_getElem, List.get_eq_getElem, List.getElem_take,
            List.getElem_drop]
          congr 1
          dsimp only
          omega
        rw [← h2]
        exact List.get_mem _ _ _
      have hpush : 0 < (jsTrim ((s.drop index).take 800)).length :=
        List.length_pos.mpr (jsTrim_ne_nil hmem hws)
      simp only [if_pos hpush]
      by_cases hbreak : s.length ≤ index + 800
      · rw [if_pos hbreak]
        exact ⟨(index, jsTrim ((s.drop index).take 800)),
          List.mem_append.mpr (Or.inr (List.mem_singleton.mpr rfl)),
          by omega, by omega⟩
      · rw [if_neg hbreak]
        exact ⟨(index, jsTrim ((s.drop index).take 800)),
          chunkLoopW_acc_mem s 800 649 cap fuel (index + (649 + 1)) _ _
            (List.mem_append.mpr (Or.inr (List.mem_singleton.mpr rfl))),
          by omega, by omega⟩
    · have hbreak : ¬ (s.length ≤ index + 800) := by omega
      by_cases hpush : 0 < (jsTrim ((s.drop index).take 800)).length
      · simp only [if_pos hpush]
        rw [if_neg hbreak]
        have hcap2 : acc.length + 1 < cap := by
          by_contra hcon
          have h0 : cap - acc.length - 1 = 0 := by omega
          rw [h0] at hH
          omega
        apply ih (index + (649 + 1))
          (acc ++ [(index, jsTrim ((s.drop index).take 800))])
          (by omega) ?_ (by simp; omega) j hj (by omega) hws
        rw [List.length_append]
        simp only [List.length_cons, List.length_nil]
        omega
      · simp only [if_neg hpush]
        rw [if_neg hbreak]
        exact ih (index + (649 + 1)) acc (by omega) (by omega) hcap
          j hj (by omega) hws

/-- Claim C4 (amended): when the normalized text is no longer than
`(MAX_DOC_CHUNKS - 1) * (CHUNK_SIZE - CHUNK_OVERLAP) + CHUNK_SIZE = 39150`
characters (rather than the full 50000 document cap), every
non-whitespace character position of the normalized text lies inside at
least one produced chunk's window, so overlap regions may be duplicated
but no content is lost; windows whose slice is pure whitespace produce no
chunk, and beyond 39150 characters the 60-chunk cap loses content (see
the counterexample). -/
theorem C4_amended_coverage (text : List Char)
    (hlen : (normalizedOf text).length ≤
      (MAX_DOC_CHUNKS - 1) * (CHUNK_SIZE - CHUNK_OVERLAP) + CHUNK_SIZE) :
    ∀ j (hj : j < (normalizedOf text).length),
      jsWhitespace ((normalizedOf text).get ⟨j, hj⟩) = false →
      ∃ w ∈ chunkWindows text, w.1 ≤ j ∧ j < w.1 + CHUNK_SIZE := by
  intro j hj hws
  unfold chunkWindows
  rw [if_neg (by omega)]
  simp only [CHUNK_SIZE, CHUNK_OVERLAP, MAX_DOC_CHUNKS] at hlen ⊢
  have h649 : (800 : Nat) - 150 - 1 = 649 := by norm_num
  rw [h649]
  exact chunkLoopW_covers (normalizedOf text) 60 (normalizedOf text).length 0 []
    (by omega) (by simp only [List.length_nil]; omega)
    (by simp only [List.length_nil]; omega) j hj (by omega) hws

/-- Witness for C4 (amended) on the input `"hello"` at position 0. -/
theorem C4_amended_coverage_witness :
    (normalizedOf "hello".data).length ≤
      (MAX_DOC_CHUNKS - 1) * (CHUNK_SIZE - CHUNK_OVERLAP) + CHUNK_SIZE ∧
    ∃ w ∈ chunkWindows "hello".data, w.1 ≤ 0 ∧ 0 < w.1 + CHUNK_SIZE :=
  ⟨by decide,
   C4_amended_coverage "hello".data (by decide) 0 (by decide) (by decide)⟩

/-! ## Claim C7: retrieval failure never fails the chat turn -/

theorem collectContexts_all_empty (ms : List (Option VectorizeMatch))
    (acc : List ContextSnippet)
    (h : ∀ mo ∈ ms, ∀ mt, mo = some mt → matchSnippetText mt = "") :
    collectContexts ms acc = acc := by
  induction ms generalizing acc with
  | nil => rfl
  | cons mo rest ih =>
    cases mo with
    | none =>
      show collectContexts rest acc = acc
      exact ih acc (fun x hx mt hmt => h x (List.mem_cons_of_mem _ hx) mt hmt)
    | some mt =>
      have hm : matchSnippetText mt = "" :=
        h (some mt) (List.mem_cons_self _ _) mt rfl
      simp only [collectContexts, hm, ite_true, if_true]
      exact ih acc (fun x hx mt2 hmt => h x (List.mem_cons_of_mem _ hx) mt2 hmt)

/-- Claim C7: whatever the embedding capability and the vector store do —
return nothing usable, return matches with unusable metadata, or throw —
`buildRetrievalContext` returns normally with an empty prompt-message list
and empty snippet list instead of propagating the failure. -/
theorem C7_retrieval_never_fails (question : String)
    (embedOutcome : Except (List Char) EmbeddingResponse)
    (queryOutcome : Except (List Char) VectorizeQueryResponse)
    (h : embedText embedOutcome = none ∨
         (∃ e, queryOutcome = Except.error e) ∨
         (∃ qr, queryOutcome = Except.ok qr ∧
           ∀ mo ∈ qr.matchList.getD [], ∀ mt, mo = some mt →
             matchSnippetText mt = "")) :
    buildRetrievalContext question embedOutcome queryOutcome = ([], []) := by
  unfold buildRetrievalContext
  by_cases ht : jsTrimS question = ""
  · rw [if_pos ht]
  · rw [if_neg ht]
    rcases h with h1 | ⟨e, he⟩ | ⟨qr, hq, hall⟩
    · simp [h1]
    · subst he
      cases hemb : embedText embedOutcome with
      | none => simp [hemb]
      | some v => simp [hemb]
    · subst hq
      cases hemb : embedText embedOutcome with
      | none => simp [hemb]
      | some v =>
        simp only [hemb]
        rw [collectContexts_all_empty _ [] hall]
        simp

/-- Witness for C7: an embedding inference error degrades to the empty
context rather than an error. -/
theorem C7_retrieval_never_fails_witness :
    embedText (Except.error "boom".data) = none ∧
    buildRetrievalContext "q" (Except.error "boom".data)
      (Except.ok ⟨none⟩) = ([], []) :=
  ⟨rfl,
   C7_retrieval_never_fails "q" (Except.error "boom".data) (Except.ok ⟨none⟩)
     (Or.inl rfl)⟩

/-! ## Claim C8: history reads are not idempotent on legacy sessions -/

/-- Claim C8 (code bug): for a session stored in the legacy shape (a bare
array under the old `"messages"` key), the first `GET /api/history` read
returns the legacy messages while deleting them from storage without
writing the migrated record back, so a second read with no intervening
writes returns an empty message list — the two payloads differ. -/
theorem C8_legacy_read_not_idempotent :
    (fetchSessionHistory ⟨none, some [⟨"user", "hi"⟩]⟩ "t1").1.messages =
      [⟨"user", "hi"⟩] ∧
    (fetchSessionHistory ⟨none, some [⟨"user", "hi"⟩]⟩ "t1").2 =
      ⟨none, none⟩ ∧
    (fetchSessionHistory
      (fetchSessionHistory ⟨none, some [⟨"user", "hi"⟩]⟩ "t1").2
      "t1").1.messages = [] := by
  refine ⟨rfl, rfl, rfl⟩

/-! ## Claim C3: unsupported upload kinds -/

/-- Claim C3 (counterexample): uploading a `.exe` file yields HTTP 500
(not 400 as claimed) with the unsupported-file-type message; no vector
records are upserted. -/
theorem C3_counterexample :
    handleDocumentUpload
      (UploadBody.multipart none none
        (some ⟨"report.exe".data, "application/x-msdownload".data, "x".data⟩))
      none (Except.error []) (Except.error []) (Except.error [])
      "d".data "t".data =
      ⟨500, some "Unsupported file type \"application/x-msdownload\"".data,
        []⟩ ∧
    (500 : Nat) ≠ 400 := by
  constructor
  · rfl
  · decide

/-- Claim C3 (amended): for every upload whose file kind cannot be
classified (not text-like, not PDF, not image), the handler responds with
HTTP status 500 — the unsupported-media error is thrown and caught by the
generic handler, not mapped to 400 — with an error message naming the
unsupported media type, and no vector records are upserted. -/
theorem C3_amended_unsupported_media (file : UploadFile)
    (titleField textField : Option (List Char))
    (xSourceType : Option (List Char))
    (pdfOutcome : Except (List Char) PdfExtractionResponse)
    (imageOutcome : Except (List Char) OcrResult)
    (embedOutcome : Except (List Char) EmbeddingResponse) (docId now : List Char)
    (h1 : "text/".data.isPrefixOf (toLowerChars file.mime) = false)
    (h2 : ".txt".data.isSuffixOf (toLowerChars file.name) = false)
    (h3 : ".md".data.isSuffixOf (toLowerChars file.name) = false)
    (h4 : ".json".data.isSuffixOf (toLowerChars file.name) = false)
    (h5 : ".csv".data.isSuffixOf (toLowerChars file.name) = false)
    (h6 : ¬ (toLowerChars file.mime = "application/pdf".data))
    (h7 : ".pdf".data.isSuffixOf (toLowerChars file.name) = false)
    (h8 : "image/".data.isPrefixOf (toLowerChars file.mime) = false) :
    handleDocumentUpload (UploadBody.multipart titleField textField (some file))
      xSourceType pdfOutcome imageOutcome embedOutcome docId now =
      ⟨500, some ("Unsupported file type \"".data ++
        (if (toLowerChars file.mime).length ≠ 0 then toLowerChars file.mime
         else toLowerChars file.name) ++ "\"".data), []⟩ := by
  have hext : extractTextFromUpload file pdfOutcome imageOutcome =
      Except.error ("Unsupported file type \"".data ++
        (if (toLowerChars file.mime).length ≠ 0 then toLowerChars file.mime
         else toLowerChars file.name) ++ "\"".data) := by
    unfold extractTextFromUpload
    simp only [h1, h2, h3, h4, h5, h6, h7, h8, Bool.or_false, Bool.false_or,
      decide_False, if_false, Bool.false_eq_true, ite_false]
  have hprep : uploadPrepared
      (UploadBody.multipart titleField textField (some file)) xSourceType
      pdfOutcome imageOutcome =
      Except.error (500, "Unsupported file type \"".data ++
        (if (toLowerChars file.mime).length ≠ 0 then toLowerChars file.mime
         else toLowerChars file.name) ++ "\"".data) := by
    unfold uploadPrepared
    dsimp only
    rw [hext]
  unfold handleDocumentUpload
  rw [hprep]

/-- Witness for C3 (amended) at a zip archive upload. -/
theorem C3_amended_unsupported_media_witness :
    ("text/".data.isPrefixOf
      (toLowerChars "application/zip".data) = false) ∧
    handleDocumentUpload
      (UploadBody.multipart none none
        (some ⟨"bundle.zip".data, "application/zip".data, "x".data⟩))
      none (Except.error []) (Except.error []) (Except.error [])
      "d".data "t".data =
      ⟨500, some ("Unsupported file type \"".data ++
        (if (toLowerChars ("application/zip".data : List Char)).length ≠ 0 then
          toLowerChars "application/zip".data
         else toLowerChars "bundle.zip".data) ++ "\"".data), []⟩ :=
  ⟨by decide,
   C3_amended_unsupported_media
     ⟨"bundle.zip".data, "application/zip".data, "x".data⟩ none none none
     (Except.error []) (Except.error []) (Except.error []) "d".data "t".data
     (by decide) (by decide) (by decide) (by decide) (by decide) (by decide)
     (by decide) (by decide)⟩

/-! ## Claim C9 -/

/-- Claim C9: the effective model id is resolved by strict priority:
a request-supplied id that is non-empty after trimming wins; otherwise a
stored id that is non-empty after trimming; otherwise the default. -/
theorem C9_model_priority (req sto : Option String) (fb : String) :
    (∀ r, req = some r → jsTrimS r ≠ "" → selectModelId req sto fb = jsTrimS r) ∧
    ((req = none ∨ ∃ r, req = some r ∧ jsTrimS r = "") →
      (∀ s, sto = some s → jsTrimS s ≠ "" →
        selectModelId req sto fb = jsTrimS s) ∧
      ((sto = none ∨ ∃ s, sto = some s ∧ jsTrimS s = "") →
        selectModelId req sto fb = fb)) := by
  constructor
  · intro r hr hne
    subst hr
    simp [selectModelId, hne]
  · intro hreq
    constructor
    · intro s hs hne
      subst hs
      rcases hreq with h | ⟨r, hr, hr0⟩
      · subst h; simp [selectModelId, hne]
      · subst hr; simp [selectModelId, hr0, hne]
    · intro hsto
      rcases hreq with h | ⟨r, hr, hr0⟩ <;>
        rcases hsto with h2 | ⟨s, hs, hs0⟩ <;>
          subst_vars <;> simp [selectModelId, *]

/-- Witness for C9: a request-supplied model id with surrounding blanks
beats a stored id; the trimmed request value is used. -/
theorem C9_model_priority_witness :
    jsTrimS "  special-model  " ≠ "" ∧
    selectModelId (some "  special-model  ") (some "stored-model")
      DEFAULT_MODEL_ID = jsTrimS "  special-model  " :=
  ⟨by decide,
   (C9_model_priority (some "  special-model  ") (some "stored-model")
      DEFAULT_MODEL_ID).1 "  special-model  " rfl (by decide)⟩
